import Mathlib

/-!
Verification development for the youtube-channel-fetcher repository.

Shallow embedding of the core fetch path:
- the channel resolver (getChannelId, src/unnamed/part_002 lines 17-64),
- the channel info accessor (getChannelInfo, lines 71-96),
- the detail batch fetcher (getVideoDetails, lines 292-315),
- the paginated fetchers (getAllChannelVideos, lines 205-285, and
  streamAllChannelVideos, lines 104-197),
- the library layer (fetchYoutubeVideos and streamYoutubeVideos,
  src/lib/youtube-videos.js), and
- the HTTP routes (src/unnamed/part_001): the bulk route and the SSE
  streaming route.

The upstream YouTube Data API is modelled as an environment: each call the
code makes is answered by a response value supplied in the environment
(a success payload or a transport error), consumed in call order.
-/

namespace YTF

/-- The id object of a search.list item: an object with kind and videoId
fields, as returned by the upstream search endpoint. -/
structure CompositeId where
  kind : String
  videoId : String
deriving DecidableEq, Repr

/-- The snippet sub-object of a search.list item (the fields the code
reads are nested under snippet; the merge never flattens them). -/
structure SearchSnippet where
  title : String
  description : String
  publishedAt : String
  thumbnailUrl : String
deriving DecidableEq, Repr

/-- One item of a search.list response: id is the composite object,
content sits under snippet. -/
structure SearchItem where
  id : CompositeId
  snippet : SearchSnippet
deriving DecidableEq, Repr

/-- One item of a videos.list response, before getVideoDetails reshapes
it: id is a plain string and snippet.tags may be absent (modelled as an
Option), which getVideoDetails defaults to the empty list. -/
structure RawVideo where
  id : String
  title : String
  description : String
  publishedAt : String
  thumbnailUrl : String
  duration : String
  viewCount : String
  likeCount : String
  commentCount : String
  tags : Option (List String)
deriving DecidableEq, Repr

/-- The record built by getVideoDetails (part_002 lines 299-310): a flat
object whose id is the plain video id string and whose tags default to []
when the upstream snippet omitted them. -/
structure VideoDetail where
  id : String
  title : String
  description : String
  publishedAt : String
  thumbnailUrl : String
  duration : String
  viewCount : String
  likeCount : String
  commentCount : String
  tags : List String
deriving DecidableEq, Repr

/-- getVideoDetails (part_002 lines 292-315): maps each videos.list item
to the flat detail record; the only defaulting is tags getting [] via
the JavaScript expression video.snippet.tags or []. -/
def getVideoDetails (items : List RawVideo) : List VideoDetail :=
  items.map fun v =>
    { id := v.id
      title := v.title
      description := v.description
      publishedAt := v.publishedAt
      thumbnailUrl := v.thumbnailUrl
      duration := v.duration
      viewCount := v.viewCount
      likeCount := v.likeCount
      commentCount := v.commentCount
      tags := v.tags.getD [] }

/-- The id field of a delivered video. The object spread in the merge
(part_002 lines 160-168) leaves the search item's composite id object in
place when no detail record matched, and overwrites it with the detail
record's plain string id when one did; the two shapes coexist at the
public interface, so the embedding needs a sum. -/
inductive IdField where
  | composite (c : CompositeId)
  | plain (s : String)
deriving DecidableEq, Repr

/-- A delivered video record. The spread of the search item followed by
the (possibly absent) detail record yields: the id field (composite or
overwritten), the untouched snippet sub-object, and the top-level detail
fields exactly when a detail record matched. detail = none covers both a
merge miss and the includeDetails = false path, which produce
structurally identical records in the source (a shallow copy of the
search item in the first case, the item itself in the second). -/
structure Video where
  id : IdField
  snippet : SearchSnippet
  detail : Option VideoDetail
deriving DecidableEq, Repr

/-- The spread { ...video, ...details } of part_002 lines 164-167 for a
single search item, with details the result of the find over the detail
batch: when details is undefined the spread is a shallow copy of the
item; otherwise every detail field lands on top, and id (the one
colliding key) is overwritten by the detail record's plain string id. -/
def mergeVideo (v : SearchItem) (found : Option VideoDetail) : Video :=
  { id := match found with
      | some d => IdField.plain d.id
      | none => IdField.composite v.id
    snippet := v.snippet
    detail := found }

/-- The per-page merge of part_002 lines 160-168: for each search item,
linearly scan the detail batch for a record whose id equals the item's
id.videoId, and spread it over the item. -/
def mergePage (items : List SearchItem) (videoDetails : List VideoDetail) : List Video :=
  items.map fun v => mergeVideo v (videoDetails.find? fun d => d.id == v.id.videoId)

/-- The includeDetails = false path delivers the raw search item, which
in the embedding is the video with composite id and no detail fields. -/
def videoOfSearchItem (v : SearchItem) : Video :=
  { id := IdField.composite v.id, snippet := v.snippet, detail := none }

/-- The upstream's answer to one search.list page call, bundled with the
answer it would give to the detail-batch call for that page's ids.
fail models a rejected search call (transport, auth, quota); inside ok,
details models the videos.list response for the page (consulted only
when items is nonempty and includeDetails is set, since the code only
issues the batch call then). items empty covers both an absent items
field and an empty array, which the guard on part_002 line 151 treats
alike. nextPageToken is the continuation cursor. -/
inductive UpstreamPage where
  | fail (msg : String)
  | ok (items : List SearchItem) (details : Except String (List RawVideo))
      (nextPageToken : Option String)
deriving Repr

/-- The continuation cursor carried by an upstream page response. -/
def UpstreamPage.token : UpstreamPage → Option String
  | .fail _ => none
  | .ok _ _ t => t

/-- The number of search items carried by an upstream page response. -/
def UpstreamPage.itemCount : UpstreamPage → Nat
  | .fail _ => 0
  | .ok items _ _ => items.length

/-- A response is well formed for a run when the search call succeeded
and, if details are requested, so did the detail-batch call. -/
def UpstreamPage.wellFormed (includeDetails : Bool) : UpstreamPage → Bool
  | .fail _ => false
  | .ok _ details _ =>
    !includeDetails ||
      (match details with
       | .ok _ => true
       | .error _ => false)

/-- The body of one loop iteration shared by both fetchers (part_002
lines 151-169 and 243-261): given the page's items and the bundled
detail response, produce the merged batch for the page, or the error
that aborts the run. Returns ok [] for an empty page, on which the
source skips the merge and the delivery entirely. -/
def processPage (includeDetails : Bool) (items : List SearchItem)
    (details : Except String (List RawVideo)) : Except String (List Video) :=
  match items with
  | [] => Except.ok []
  | _ :: _ =>
    if includeDetails then
      match details with
      | .error msg => Except.error msg
      | .ok raw => Except.ok (mergePage items (getVideoDetails raw))
    else
      Except.ok (items.map videoOfSearchItem)

/-- The do-while loop of getAllChannelVideos (part_002 lines 221-275),
recursing over the upstream responses in call order. acc is allVideos,
pageCount counts the search calls already issued. Each list element
consumed is one search.list call; the loop stops when a response carries
no nextPageToken, and aborts with the error when a call fails. The
response list running dry while a cursor is still pending cannot happen
in a session where the environment answers every call; the [] branch
closes the recursion and is unreachable under the claims' hypotheses.
Returns the accumulated videos and the number of search calls issued. -/
def getAllAux (includeDetails : Bool) (acc : List Video) (pageCount : Nat) :
    List UpstreamPage → Except String (List Video × Nat)
  | [] => Except.ok (acc, pageCount)
  | p :: rest =>
    match p with
    | .fail msg => Except.error msg
    | .ok items details tok =>
      match processPage includeDetails items details with
      | .error msg => Except.error msg
      | .ok merged =>
        match tok with
        | none => Except.ok (acc ++ merged, pageCount + 1)
        | some _ => getAllAux includeDetails (acc ++ merged) (pageCount + 1) rest

/-- getAllChannelVideos (part_002 lines 205-285) over a sequence of
upstream responses: the loop starting from the empty accumulator. The
inter-page courtesy delay has no observable effect on the data and is
not modelled. -/
def getAllChannelVideos (includeDetails : Bool) (pages : List UpstreamPage) :
    Except String (List Video × Nat) :=
  getAllAux includeDetails [] 0 pages

/-- One observable action of a streaming fetch session, in emission
order: the onProgress callback with its page, totalFetched and hasMore
payload (part_002 lines 127-131), a search.list call, a videos.list
detail-batch call, or the onVideos callback with the page's merged
batch (line 174). -/
inductive FetchAction where
  | progress (page totalFetched : Nat) (hasMore : Bool)
  | search (page : Nat)
  | detailBatch (page : Nat)
  | videos (batch : List Video)
deriving DecidableEq, Repr

/-- The do-while loop of streamAllChannelVideos (part_002 lines 122-187)
with its action trace. Per iteration the source emits onProgress (with
the page number about to be fetched, the running total, and the
truthiness of the previous cursor), then issues the search call, then on
a nonempty page the detail-batch call and the merge, then accumulates
and fires onVideos with the page's batch. prevToken is the nextPageToken
value from the previous iteration (null before the first). The trace
records the actions performed before a failure as well; the second
component is the returned allVideos array or the thrown error. -/
def streamAux (includeDetails : Bool) (acc : List Video) (pageCount : Nat)
    (prevToken : Option String) :
    List UpstreamPage → List FetchAction × Except String (List Video)
  | [] => ([], Except.ok acc)
  | p :: rest =>
    match p with
    | .fail msg =>
      ([FetchAction.progress (pageCount + 1) acc.length prevToken.isSome,
        FetchAction.search (pageCount + 1)], Except.error msg)
    | .ok items details tok =>
      match processPage includeDetails items details with
      | .error msg =>
        ([FetchAction.progress (pageCount + 1) acc.length prevToken.isSome,
          FetchAction.search (pageCount + 1),
          FetchAction.detailBatch (pageCount + 1)], Except.error msg)
      | .ok merged =>
        let iterActs :=
          FetchAction.progress (pageCount + 1) acc.length prevToken.isSome ::
            FetchAction.search (pageCount + 1) ::
              (if items.isEmpty then []
               else
                 (if includeDetails then [FetchAction.detailBatch (pageCount + 1)] else []) ++
                   [FetchAction.videos merged])
        match tok with
        | none => (iterActs, Except.ok (acc ++ merged))
        | some _ =>
          let next := streamAux includeDetails (acc ++ merged) (pageCount + 1) tok rest
          (iterActs ++ next.1, next.2)

/-- streamAllChannelVideos (part_002 lines 104-197) over a sequence of
upstream responses: the traced loop from the empty accumulator. -/
def streamAllChannelVideos (includeDetails : Bool) (pages : List UpstreamPage) :
    List FetchAction × Except String (List Video) :=
  streamAux includeDetails [] 0 none pages

/-- The batches handed to the onVideos callback during a session, in
emission order. -/
def batchesOf (tr : List FetchAction) : List (List Video) :=
  tr.filterMap fun a =>
    match a with
    | FetchAction.videos b => some b
    | _ => none

/-- The number of search.list calls a session issued. -/
def searchCallCount (tr : List FetchAction) : Nat :=
  tr.countP fun a =>
    match a with
    | FetchAction.search _ => true
    | _ => false

/-!
The channel resolver. JavaScript string primitives are embedded as
kernel-executable functions over character lists: splitGoF and jsSplit
implement String.prototype.split with a nonempty separator (split on
every non-overlapping occurrence, left to right), jsStartsWith
implements String.prototype.startsWith, and jsSubstringFrom implements
String.prototype.substring with one argument.
-/

/-- One pass of the JavaScript split over the character list. The fuel
argument makes the recursion structural; every step consumes at least
one character when the separator is nonempty, so fuel = length + 1 never
runs out on the inputs jsSplit supplies. -/
def splitGoF (sep : List Char) : Nat → List Char → List (List Char)
  | 0, rest => [rest]
  | fuel + 1, s =>
    match s with
    | [] => [[]]
    | c :: cs =>
      if sep.isPrefixOf s then
        [] :: splitGoF sep fuel (s.drop sep.length)
      else
        match splitGoF sep fuel cs with
        | [] => [[c]]
        | p :: ps => (c :: p) :: ps

/-- JavaScript s.split(sep) for nonempty sep (the only use in the
source). -/
def jsSplit (s sep : String) : List String :=
  (splitGoF sep.toList (s.toList.length + 1) s.toList).map fun cs => String.mk cs

/-- JavaScript s.startsWith(p). -/
def jsStartsWith (s p : String) : Bool :=
  p.toList.isPrefixOf s.toList

/-- JavaScript s.substring(n). -/
def jsSubstringFrom (s : String) (n : Nat) : String :=
  String.mk (s.toList.drop n)

/-- JavaScript s.includes(sub) for nonempty sub, expressed through the
split: a nonempty separator occurs in s exactly when the split yields
more than one part. -/
def jsIncludes (s sub : String) : Bool :=
  (jsSplit s sub).length != 1

/-- arr[i] on a JavaScript array when the index is known in range in the
source (index 0 on a split result, which is never empty, and index 1
guarded by includes). -/
def jsAt (xs : List String) (i : Nat) : String :=
  xs.getD i ""

/-- The single search.list channel-search call at the end of
getChannelId (part_002 lines 48-59). The oracle maps the query string to
the upstream response, modelled as the list of item channel ids; a
nonempty response yields its first id, an empty one the channel-not-found
error, and a transport error is rethrown by the catch. The second
component counts the search calls issued. -/
def searchChannel (oracle : String → Except String (List String)) (input q : String) :
    Except String String × Nat :=
  match oracle q with
  | Except.error e => (Except.error e, 1)
  | Except.ok [] => (Except.error ("Channel not found: " ++ input), 1)
  | Except.ok (id :: _) => (Except.ok id, 1)

/-- The component a channel URL contributes (part_002 lines 27-30): the
part after the first youtube.com/channel/, cut before any question mark,
then before any further slash. -/
def channelUrlComponent (input : String) : String :=
  jsAt (jsSplit (jsAt (jsSplit (jsAt (jsSplit input "youtube.com/channel/") 1) "?") 0) "/") 0

/-- The component a custom-name or handle URL contributes (part_002
lines 38-41): the part after the first youtube.com/, cut before any
question mark, then before any further slash. -/
def handlePathComponent (input : String) : String :=
  jsAt (jsSplit (jsAt (jsSplit (jsAt (jsSplit input "youtube.com/") 1) "?") 0) "/") 0

/-- getChannelId (part_002 lines 17-64). Ordered: a raw input that
starts with UC and has length 24 is returned as is; an input containing
the literal youtube.com/channel/ has its channelUrlComponent extracted,
and that component is returned whenever it merely starts with UC; an
input containing youtube.com/c/ or youtube.com/@ has its
handlePathComponent extracted, with one leading at-sign stripped;
everything else searches with the raw input. String lengths are
character counts, matching JavaScript length on the ASCII identifiers
involved. -/
def getChannelId (oracle : String → Except String (List String)) (input : String) :
    Except String String × Nat :=
  if jsStartsWith input "UC" && input.length == 24 then
    (Except.ok input, 0)
  else if jsIncludes input "youtube.com/channel/" then
    let channelIdentifier := channelUrlComponent input
    if jsStartsWith channelIdentifier "UC" then
      (Except.ok channelIdentifier, 0)
    else
      searchChannel oracle input channelIdentifier
  else if jsIncludes input "youtube.com/c/" || jsIncludes input "youtube.com/@" then
    let extracted := handlePathComponent input
    let channelIdentifier :=
      if jsStartsWith extracted "@" then jsSubstringFrom extracted 1 else extracted
    searchChannel oracle input channelIdentifier
  else
    searchChannel oracle input input

/-- The canonical channel id shape the spec describes: fixed prefix UC
and fixed total length 24. -/
def canonicalShaped (s : String) : Bool :=
  jsStartsWith s "UC" && s.length == 24

/-- One item of a channels.list response (part_002 lines 73-88), already
projected to the fields the code reads. -/
structure RawChannel where
  id : String
  title : String
  description : String
  thumbnailUrl : String
  subscriberCount : String
  videoCount : String
  viewCount : String
deriving DecidableEq, Repr

/-- The channel info record getChannelInfo builds (part_002 lines
80-88). -/
structure ChannelInfo where
  id : String
  title : String
  description : String
  thumbnail : String
  subscriberCount : String
  videoCount : String
  viewCount : String
deriving DecidableEq, Repr

/-- getChannelInfo (part_002 lines 71-96): one channels.list call; a
nonempty item list yields the first item's info, an empty one the
channel-not-found error, and a transport error is rethrown. -/
def getChannelInfo (resp : Except String (List RawChannel)) (channelId : String) :
    Except String ChannelInfo :=
  match resp with
  | Except.error e => Except.error e
  | Except.ok [] => Except.error ("Channel not found: " ++ channelId)
  | Except.ok (c :: _) =>
    Except.ok
      { id := c.id
        title := c.title
        description := c.description
        thumbnail := c.thumbnailUrl
        subscriberCount := c.subscriberCount
        videoCount := c.videoCount
        viewCount := c.viewCount }

/-- The upstream responses one request's fetch session consumes: the
channel-search oracle behind getChannelId, the channels.list response
behind getChannelInfo, and the page responses behind the video loop. -/
structure FetchEnv where
  channelSearch : String → Except String (List String)
  channelsList : Except String (List RawChannel)
  pages : List UpstreamPage

/-- fetchYoutubeVideos (src/lib/youtube-videos.js lines 62-106): resolve
the channel, fetch its info, then getAllChannelVideos with
includeDetails true, returning the video array. The enclosing catch
(lines 103-105) logs the error message and falls off the end of the
function, so every failure makes the function resolve with undefined:
the error outcome is mapped to none, not propagated. -/
def fetchYoutubeVideos (env : FetchEnv) (channelInput : String) : Option (List Video) :=
  match (getChannelId env.channelSearch channelInput).1 with
  | Except.error _ => none
  | Except.ok channelId =>
    match getChannelInfo env.channelsList channelId with
    | Except.error _ => none
    | Except.ok _ =>
      match getAllChannelVideos true env.pages with
      | Except.error _ => none
      | Except.ok (videos, _) => some videos

/-- The body of the bulk route's JSON response: a video array when the
fetch resolved with one, or the empty body that express res.json sends
for undefined. errorObj is the shape the spec prescribes for failures;
writing it into the model lets the theorems speak about its absence. -/
inductive ApiBody where
  | videos (vs : List Video)
  | empty
  | errorObj (message : String)
deriving DecidableEq, Repr

/-- An HTTP response of the bulk route: status code and JSON body. -/
structure ApiResponse where
  status : Nat
  body : ApiBody
deriving DecidableEq, Repr

/-- The bulk route handler (src/unnamed/part_001 lines 6-9): await
fetchYoutubeVideos, then res.json(videos) with the default 200 status.
When the fetch resolved with undefined, res.json serialises undefined to
an empty body, still with status 200; no branch of the handler produces
a non-200 status or an error object. -/
def routeVideos (env : FetchEnv) (channelInput : String) : ApiResponse :=
  match fetchYoutubeVideos env channelInput with
  | some vs => { status := 200, body := ApiBody.videos vs }
  | none => { status := 200, body := ApiBody.empty }

/-- One callback invocation streamYoutubeVideos performs, in order:
onProgress with its stage tag, onVideo for one video (the route's
onVideos handler forwards each element of a batch individually,
src/lib/youtube-videos.js lines 186-189), onComplete, or onError. -/
inductive CB where
  | progress (stage : String)
  | video (v : Video)
  | complete
  | error (msg : String)
deriving DecidableEq, Repr

/-- The callback invocations produced by the video loop when driven
through streamYoutubeVideos: each loop onProgress becomes a progress
callback with stage videos_progress (lines 179-185), each onVideos batch
is forwarded one video at a time (lines 186-189), and the internal
search and detail-batch calls invoke no callback. -/
def cbOfAction : FetchAction → List CB
  | FetchAction.progress _ _ _ => [CB.progress "videos_progress"]
  | FetchAction.search _ => []
  | FetchAction.detailBatch _ => []
  | FetchAction.videos b => b.map CB.video

/-- The loop trace flattened to callback invocations. -/
def cbOfActions (tr : List FetchAction) : List CB :=
  (tr.map cbOfAction).flatten

/-- streamYoutubeVideos (src/lib/youtube-videos.js lines 129-200) as the
ordered list of callback invocations it performs. The function emits
progress channel_lookup before resolving, progress channel_info before
the info call, progress channel_ready and videos_start on success, runs
streamAllChannelVideos with includeDetails true, then onComplete; the
enclosing catch turns any thrown error into a single onError. -/
def streamYoutubeVideos (env : FetchEnv) (channelInput : String) : List CB :=
  CB.progress "channel_lookup" ::
    match (getChannelId env.channelSearch channelInput).1 with
    | Except.error e => [CB.error e]
    | Except.ok channelId =>
      CB.progress "channel_info" ::
        match getChannelInfo env.channelsList channelId with
        | Except.error e => [CB.error e]
        | Except.ok _info =>
          CB.progress "channel_ready" :: CB.progress "videos_start" ::
            match streamAllChannelVideos true env.pages with
            | (tr, Except.ok _) => cbOfActions tr ++ [CB.complete]
            | (tr, Except.error e) => cbOfActions tr ++ [CB.error e]

/-- One server-sent event written by the streaming route, identified by
its type field: connected once at open, progress with its stage, video
with the delivered video and the 1-based running count, complete with
the final count, or error with the message. -/
inductive SSEEvent where
  | connected
  | progress (stage : String)
  | video (v : Video) (count : Nat)
  | complete (totalVideos : Nat)
  | error (message : String)
deriving DecidableEq, Repr

/-- The streaming route's callback handlers (src/unnamed/part_001 lines
38-75) folded over the callback sequence: the route keeps a videoCount
counter starting at 0, increments it on every onVideo and stamps the new
value into the video event, and stamps the current value into the
complete event as totalVideos. -/
def sseOfCBs : Nat → List CB → List SSEEvent
  | _, [] => []
  | c, CB.progress s :: rest => SSEEvent.progress s :: sseOfCBs c rest
  | c, CB.video v :: rest => SSEEvent.video v (c + 1) :: sseOfCBs (c + 1) rest
  | c, CB.complete :: rest => SSEEvent.complete c :: sseOfCBs c rest
  | c, CB.error m :: rest => SSEEvent.error m :: sseOfCBs c rest

/-- The streaming route handler (src/unnamed/part_001 lines 11-81) for a
request whose channel parameter is present: write the connected event,
then run streamYoutubeVideos with the four handlers. -/
def routeStream (env : FetchEnv) (channelInput : String) : List SSEEvent :=
  SSEEvent.connected :: sseOfCBs 0 (streamYoutubeVideos env channelInput)

/-- The streaming route including the client-disconnect signal.
disconnectAfterPage records after which completed page the consumer
disconnected (none for no disconnect). The close handler the route
registers (part_001 lines 78-80) only logs; no flag it sets is ever read
by streamAllChannelVideos or streamYoutubeVideos, so the event sequence
and the upstream call trace the session produces are those of the
undisturbed run whatever the disconnect timing. The pair returned is the
event sequence and the number of search.list calls issued. -/
def routeStreamWithDisconnect (env : FetchEnv) (channelInput : String)
    (disconnectAfterPage : Option Nat) : List SSEEvent × Nat :=
  (routeStream env channelInput,
   searchCallCount (streamAllChannelVideos true env.pages).1)

/-- The count stamps of the video events, in emission order. -/
def videoCounts (evs : List SSEEvent) : List Nat :=
  evs.filterMap fun e =>
    match e with
    | SSEEvent.video _ c => some c
    | _ => none

/-- Type test: connected. -/
def SSEEvent.isConnected : SSEEvent → Bool
  | SSEEvent.connected => true
  | _ => false

/-- Type test: progress. -/
def SSEEvent.isProgress : SSEEvent → Bool
  | SSEEvent.progress _ => true
  | _ => false

/-- Type test: video. -/
def SSEEvent.isVideo : SSEEvent → Bool
  | SSEEvent.video _ _ => true
  | _ => false

/-- Type test: complete. -/
def SSEEvent.isComplete : SSEEvent → Bool
  | SSEEvent.complete _ => true
  | _ => false

/-- Type test: error. -/
def SSEEvent.isError : SSEEvent → Bool
  | SSEEvent.error _ => true
  | _ => false

/-- A callback invocation that is neither terminal kind. -/
def CB.nonTerminal : CB → Bool
  | CB.progress _ => true
  | CB.video _ => true
  | CB.complete => false
  | CB.error _ => false

/-! Helper lemmas about the per-page merge. -/

lemma mergePage_length (items : List SearchItem) (ds : List VideoDetail) :
    (mergePage items ds).length = items.length := by
  simp [mergePage]

lemma mergePage_getElem? (items : List SearchItem) (ds : List VideoDetail) (i : Nat) :
    (mergePage items ds)[i]? =
      (items[i]?).map fun v => mergeVideo v (ds.find? fun d => d.id == v.id.videoId) := by
  simp [mergePage]

lemma find?_detail_match (ds : List VideoDetail) (vid : String)
    (h : ∃ d ∈ ds, d.id = vid) :
    ∃ d, ds.find? (fun d => d.id == vid) = some d ∧ d ∈ ds ∧ d.id = vid := by
  have hs : (ds.find? fun d => d.id == vid).isSome := by
    rw [List.find?_isSome]
    obtain ⟨d, hd, hid⟩ := h
    exact ⟨d, hd, by simpa using hid⟩
  obtain ⟨d, hd⟩ := Option.isSome_iff_exists.mp hs
  refine ⟨d, hd, List.mem_of_find?_eq_some hd, ?_⟩
  have := List.find?_some hd
  simpa using this

lemma find?_detail_miss (ds : List VideoDetail) (vid : String)
    (h : ∀ d ∈ ds, d.id ≠ vid) :
    ds.find? (fun d => d.id == vid) = none := by
  rw [List.find?_eq_none]
  intro d hd
  simpa using h d hd

/-- C3: every VideoSummary of a page appears exactly once in the merged
output, positionally: the output has the page's length, and the record
at each index is the merge of the search item at the same index, with
the detail fields populated by a matching detail record when the batch
contains one, and the empty defaults (no detail fields, composite id,
untouched snippet) when it does not. In particular a merge miss never
drops a video. -/
theorem C3_merge_completeness (items : List SearchItem) (ds : List VideoDetail)
    (i : Nat) (item : SearchItem) (h : items[i]? = some item) :
    (mergePage items ds).length = items.length ∧
    ∃ v, (mergePage items ds)[i]? = some v ∧ v.snippet = item.snippet ∧
      ((∃ d ∈ ds, d.id = item.id.videoId) →
        ∃ d ∈ ds, d.id = item.id.videoId ∧ v.detail = some d) ∧
      ((∀ d ∈ ds, d.id ≠ item.id.videoId) →
        v.detail = none ∧ v.id = IdField.composite item.id) := by
  refine ⟨mergePage_length items ds,
    mergeVideo item (ds.find? fun d => d.id == item.id.videoId), ?_, rfl, ?_, ?_⟩
  · rw [mergePage_getElem?, h]
    rfl
  · intro hex
    obtain ⟨d, hfind, hmem, hid⟩ := find?_detail_match ds item.id.videoId hex
    refine ⟨d, hmem, hid, ?_⟩
    simp [mergeVideo, hfind]
  · intro hmiss
    have hnone := find?_detail_miss ds item.id.videoId hmiss
    simp [mergeVideo, hnone]

/-- Concrete data for the C3 witness. -/
def c3itemA : SearchItem :=
  { id := { kind := "youtube#video", videoId := "aaa" }
    snippet := { title := "A", description := "dA", publishedAt := "2020", thumbnailUrl := "uA" } }

/-- Concrete data for the C3 witness. -/
def c3itemB : SearchItem :=
  { id := { kind := "youtube#video", videoId := "bbb" }
    snippet := { title := "B", description := "dB", publishedAt := "2021", thumbnailUrl := "uB" } }

/-- Concrete data for the C3 witness. -/
def c3detailA : VideoDetail :=
  { id := "aaa", title := "A", description := "dA", publishedAt := "2020", thumbnailUrl := "uA"
    duration := "PT1M", viewCount := "10", likeCount := "2", commentCount := "1", tags := [] }

/-- Witness for C3 at a concrete page: two summaries, a detail batch
containing a record for the first only; the merged page keeps both
records and populates the first's details. -/
theorem C3_witness :
    [c3itemA, c3itemB][0]? = some c3itemA ∧
    (mergePage [c3itemA, c3itemB] [c3detailA]).length = 2 ∧
    ∃ v, (mergePage [c3itemA, c3itemB] [c3detailA])[0]? = some v ∧
      v.detail = some c3detailA := by
  have h0 : [c3itemA, c3itemB][0]? = some c3itemA := rfl
  obtain ⟨hlen, v, hv, -, hmatch, -⟩ :=
    C3_merge_completeness [c3itemA, c3itemB] [c3detailA] 0 c3itemA h0
  obtain ⟨d, hd, -, hdet⟩ := hmatch ⟨c3detailA, by simp, rfl⟩
  have hdA : d = c3detailA := by simpa using hd
  subst hdA
  exact ⟨h0, hlen, v, hv, hdet⟩

/-- C9: the id field of a delivered video is not uniform: when the
page's detail batch has a record matching the summary's videoId, the
spread overwrites the composite id object with the detail record's
plain string id; when none matches, the composite object survives. -/
theorem C9_id_shape (items : List SearchItem) (ds : List VideoDetail)
    (i : Nat) (item : SearchItem) (h : items[i]? = some item) :
    ∃ v, (mergePage items ds)[i]? = some v ∧
      ((∃ d ∈ ds, d.id = item.id.videoId) → v.id = IdField.plain item.id.videoId) ∧
      ((∀ d ∈ ds, d.id ≠ item.id.videoId) → v.id = IdField.composite item.id) := by
  refine ⟨mergeVideo item (ds.find? fun d => d.id == item.id.videoId), ?_, ?_, ?_⟩
  · rw [mergePage_getElem?, h]
    rfl
  · intro hex
    obtain ⟨d, hfind, -, hid⟩ := find?_detail_match ds item.id.videoId hex
    simp [mergeVideo, hfind, hid]
  · intro hmiss
    have hnone := find?_detail_miss ds item.id.videoId hmiss
    simp [mergeVideo, hnone]

/-- Concrete data for the C9 witness. -/
def c9itemA : SearchItem :=
  { id := { kind := "youtube#video", videoId := "aaa" }
    snippet := { title := "A", description := "dA", publishedAt := "2020", thumbnailUrl := "uA" } }

/-- Concrete data for the C9 witness. -/
def c9itemB : SearchItem :=
  { id := { kind := "youtube#video", videoId := "bbb" }
    snippet := { title := "B", description := "dB", publishedAt := "2021", thumbnailUrl := "uB" } }

/-- Concrete data for the C9 witness. -/
def c9detailA : VideoDetail :=
  { id := "aaa", title := "A", description := "dA", publishedAt := "2020", thumbnailUrl := "uA"
    duration := "PT1M", viewCount := "10", likeCount := "2", commentCount := "1", tags := [] }

/-- Witness for C9: one delivered page holding both id shapes at once:
index 0 matched and carries the plain string id, index 1 missed and
keeps the composite object. -/
theorem C9_witness :
    [c9itemA, c9itemB][0]? = some c9itemA ∧ [c9itemA, c9itemB][1]? = some c9itemB ∧
    ∃ v0 v1, (mergePage [c9itemA, c9itemB] [c9detailA])[0]? = some v0 ∧
      (mergePage [c9itemA, c9itemB] [c9detailA])[1]? = some v1 ∧
      v0.id = IdField.plain "aaa" ∧
      v1.id = IdField.composite { kind := "youtube#video", videoId := "bbb" } := by
  obtain ⟨v0, hv0, hm0, -⟩ :=
    C9_id_shape [c9itemA, c9itemB] [c9detailA] 0 c9itemA rfl
  obtain ⟨v1, hv1, -, hm1⟩ :=
    C9_id_shape [c9itemA, c9itemB] [c9detailA] 1 c9itemB rfl
  refine ⟨rfl, rfl, v0, v1, hv0, hv1, ?_, ?_⟩
  · have h := hm0 ⟨c9detailA, by simp, rfl⟩
    simpa using h
  · have h := hm1 ?_
    · simpa using h
    · intro d hd
      have hdA : d = c9detailA := by simpa using hd
      subst hdA
      decide

/-! The resolver claims. -/

/-- C7: an input of the canonical shape (prefix UC, total length 24) is
returned unchanged with zero upstream calls, whatever the search oracle
answers; and feeding the returned id back in yields the same id, again
with zero calls. -/
theorem C7_resolver_canonical_identity (oracle : String → Except String (List String))
    (input : String) (h : canonicalShaped input = true) :
    getChannelId oracle input = (Except.ok input, 0) ∧
    (∀ id, (getChannelId oracle input).1 = Except.ok id →
      getChannelId oracle id = (Except.ok id, 0)) := by
  have h' : (jsStartsWith input "UC" && input.length == 24) = true := h
  have hmain : getChannelId oracle input = (Except.ok input, 0) := by
    simp [getChannelId, h']
  refine ⟨hmain, ?_⟩
  intro id hid
  rw [hmain] at hid
  have hidq : id = input := by
    simpa using hid.symm
  subst hidq
  exact hmain

/-- Oracle for the C7 witness; a canonical id must provoke no call, so
any call is answered with a sentinel error. -/
def c7oracle : String → Except String (List String) :=
  fun _ => Except.error "no call expected"

/-- Witness for C7 at the spec's example id. -/
theorem C7_witness :
    canonicalShaped "UCBJycsmduvYEL83R_U4JriQ" = true ∧
    getChannelId c7oracle "UCBJycsmduvYEL83R_U4JriQ" =
      (Except.ok "UCBJycsmduvYEL83R_U4JriQ", 0) := by
  have h : canonicalShaped "UCBJycsmduvYEL83R_U4JriQ" = true := by rfl
  exact ⟨h, (C7_resolver_canonical_identity c7oracle "UCBJycsmduvYEL83R_U4JriQ" h).1⟩

/-- Oracle for the C8 counterexample and witness. -/
def c8oracle : String → Except String (List String) :=
  fun _ => Except.error "no call expected"

/-- C8 counterexample: the claim requires the extracted component to be
returned verbatim with no call exactly when it matches the canonical
shape (prefix plus total length 24). On the input below the component is
UCabc, which is not canonical (length 5), so the claim mandates the
search-query path; the code nevertheless returns it verbatim with zero
calls, because the source checks only the UC prefix (part_002 line 31),
never the length. -/
theorem C8_counterexample :
    getChannelId c8oracle "https://www.youtube.com/channel/UCabc?si=1" =
      (Except.ok "UCabc", 0) ∧
    canonicalShaped "UCabc" = false := by
  exact ⟨rfl, rfl⟩

/-- C8 amended: for a non-canonical input containing the canonical
channel path marker, the resolver extracts the trailing path component
(cut at a question mark or a further slash) and returns it verbatim with
zero calls exactly when the component starts with the fixed prefix UC --
the total length is not checked; otherwise it falls through to the
search-query path with the component as the query, issuing one call. -/
theorem C8_channel_url_extraction (oracle : String → Except String (List String))
    (input : String)
    (hnc : canonicalShaped input = false)
    (hurl : jsIncludes input "youtube.com/channel/" = true) :
    (jsStartsWith (channelUrlComponent input) "UC" = true →
      getChannelId oracle input = (Except.ok (channelUrlComponent input), 0)) ∧
    (jsStartsWith (channelUrlComponent input) "UC" = false →
      getChannelId oracle input = searchChannel oracle input (channelUrlComponent input) ∧
      (getChannelId oracle input).2 = 1) := by
  have hnc' : (jsStartsWith input "UC" && input.length == 24) = false := hnc
  constructor
  · intro hpre
    simp [getChannelId, hnc', hurl, hpre]
  · intro hpre
    have hmain : getChannelId oracle input = searchChannel oracle input (channelUrlComponent input) := by
      simp [getChannelId, hnc', hurl, hpre]
    refine ⟨hmain, ?_⟩
    rw [hmain]
    unfold searchChannel
    match oracle (channelUrlComponent input) with
    | Except.error _ => rfl
    | Except.ok [] => rfl
    | Except.ok (_ :: _) => rfl

/-- Witness for the amended C8 at the spec's example URL with a query
string: the component is extracted before the question mark and is
canonical there, so it is returned with zero calls. -/
theorem C8_witness :
    canonicalShaped "https://www.youtube.com/channel/UCBJycsmduvYEL83R_U4JriQ?si=abc" = false ∧
    jsIncludes "https://www.youtube.com/channel/UCBJycsmduvYEL83R_U4JriQ?si=abc"
      "youtube.com/channel/" = true ∧
    jsStartsWith (channelUrlComponent
      "https://www.youtube.com/channel/UCBJycsmduvYEL83R_U4JriQ?si=abc") "UC" = true ∧
    getChannelId c8oracle "https://www.youtube.com/channel/UCBJycsmduvYEL83R_U4JriQ?si=abc" =
      (Except.ok "UCBJycsmduvYEL83R_U4JriQ", 0) := by
  have hnc : canonicalShaped "https://www.youtube.com/channel/UCBJycsmduvYEL83R_U4JriQ?si=abc" = false := by rfl
  have hurl : jsIncludes "https://www.youtube.com/channel/UCBJycsmduvYEL83R_U4JriQ?si=abc"
      "youtube.com/channel/" = true := by rfl
  have hpre : jsStartsWith (channelUrlComponent
      "https://www.youtube.com/channel/UCBJycsmduvYEL83R_U4JriQ?si=abc") "UC" = true := by rfl
  have h := (C8_channel_url_extraction c8oracle
    "https://www.youtube.com/channel/UCBJycsmduvYEL83R_U4JriQ?si=abc" hnc hurl).1 hpre
  exact ⟨hnc, hurl, hpre, h⟩

/-! The bulk route's error propagation (C1). -/

/-- Environment for the C1 evaluation: the upstream channel search call
rejects with a quota error; nothing else is ever reached. -/
def c1env : FetchEnv :=
  { channelSearch := fun _ => Except.error "quota exceeded"
    channelsList := Except.ok []
    pages := [] }

/-- C1 evaluation at the failing input: the upstream call behind the
resolution step fails, fetchYoutubeVideos swallows the rejection (its
catch logs and returns undefined, against its own jsdoc throws clause),
and the route answers 200 with an empty body instead of the non-2xx
JSON error object the claim requires. -/
theorem C1_error_swallowed :
    (getChannelId c1env.channelSearch "somechannel").1 = Except.error "quota exceeded" ∧
    fetchYoutubeVideos c1env "somechannel" = none ∧
    routeVideos c1env "somechannel" = { status := 200, body := ApiBody.empty } := by
  exact ⟨rfl, rfl, rfl⟩

/-! Pagination (C4). -/

lemma processPage_of_wellFormed (b : Bool) (items : List SearchItem)
    (details : Except String (List RawVideo)) (tok : Option String)
    (h : (UpstreamPage.ok items details tok).wellFormed b = true) :
    ∃ merged, processPage b items details = Except.ok merged ∧
      merged.length = items.length := by
  cases items with
  | nil => exact ⟨[], rfl, rfl⟩
  | cons x xs =>
    cases b with
    | false => exact ⟨(x :: xs).map videoOfSearchItem, rfl, by simp⟩
    | true =>
      cases details with
      | error e => simp [UpstreamPage.wellFormed] at h
      | ok raw =>
        exact ⟨mergePage (x :: xs) (getVideoDetails raw), by simp [processPage],
          mergePage_length _ _⟩

lemma getAllAux_run (b : Bool) :
    ∀ (pages : List UpstreamPage) (acc : List Video) (n : Nat),
      (∀ i (hi : i < pages.length),
        ((pages.get ⟨i, hi⟩).wellFormed b = true) ∧
        (i + 1 < pages.length → ((pages.get ⟨i, hi⟩).token).isSome = true) ∧
        (i + 1 = pages.length → (pages.get ⟨i, hi⟩).token = none)) →
      ∃ vs, getAllAux b acc n pages = Except.ok (vs, n + pages.length) ∧
        vs.length = acc.length + (pages.map UpstreamPage.itemCount).sum := by
  intro pages
  induction pages with
  | nil =>
    intro acc n _
    exact ⟨acc, rfl, by simp⟩
  | cons p rest ih =>
    intro acc n h
    have h0 := h 0 (by simp)
    cases p with
    | fail msg => simp [UpstreamPage.wellFormed] at h0
    | ok items details tok =>
      obtain ⟨merged, hpp, hlen⟩ := processPage_of_wellFormed b items details tok h0.1
      have hrest : ∀ i (hi : i < rest.length),
          ((rest.get ⟨i, hi⟩).wellFormed b = true) ∧
          (i + 1 < rest.length → ((rest.get ⟨i, hi⟩).token).isSome = true) ∧
          (i + 1 = rest.length → (rest.get ⟨i, hi⟩).token = none) := by
        intro i hi
        have := h (i + 1) (by simpa using Nat.succ_lt_succ hi)
        simpa using this
      cases tok with
      | none =>
        have hrest0 : rest = [] := by
          cases rest with
          | nil => rfl
          | cons q qs =>
            have := (h0.2.1 (by simp))
            simp [UpstreamPage.token] at this
        subst hrest0
        refine ⟨acc ++ merged, ?_, ?_⟩
        · simp [getAllAux, hpp]
        · simp [UpstreamPage.itemCount, hlen]
      | some t =>
        obtain ⟨vs, hrun, hvslen⟩ := ih (acc ++ merged) (n + 1) hrest
        refine ⟨vs, ?_, ?_⟩
        · have hstep : getAllAux b acc n (UpstreamPage.ok items details (some t) :: rest) =
              getAllAux b (acc ++ merged) (n + 1) rest := by
            simp [getAllAux, hpp]
          have hN : n + 1 + rest.length =
              n + (UpstreamPage.ok items details (some t) :: rest).length := by
            simp only [List.length_cons]
            omega
          rw [hstep, hrun, hN]
        · rw [hvslen]
          simp only [List.length_append, List.map_cons, List.sum_cons,
            UpstreamPage.itemCount, hlen]
          omega

/-- C4: when the upstream answers every search call, pages 1..N-1 carry
a continuation cursor and page N carries none, getAllChannelVideos
issues exactly N search calls, terminates normally, and delivers every
item of every page: the returned count is the sum of the page sizes. -/
theorem C4_pagination (b : Bool) (pages : List UpstreamPage)
    (hone : 1 ≤ pages.length)
    (h : ∀ i (hi : i < pages.length),
      ((pages.get ⟨i, hi⟩).wellFormed b = true) ∧
      (i + 1 < pages.length → ((pages.get ⟨i, hi⟩).token).isSome = true) ∧
      (i + 1 = pages.length → (pages.get ⟨i, hi⟩).token = none)) :
    ∃ vs, getAllChannelVideos b pages = Except.ok (vs, pages.length) ∧
      vs.length = (pages.map UpstreamPage.itemCount).sum := by
  obtain ⟨vs, hrun, hlen⟩ := getAllAux_run b pages [] 0 h
  exact ⟨vs, by simpa using hrun, by simpa using hlen⟩

/-- A synthetic search item for the C4 witness pages. -/
def c4item (i : Nat) : SearchItem :=
  { id := { kind := "youtube#video", videoId := "v" ++ toString i }
    snippet := { title := "t", description := "d", publishedAt := "p", thumbnailUrl := "u" } }

/-- The C4 witness session: a channel with 73 videos at page size 50,
page 1 full with a cursor, page 2 with the remaining 23 and none. -/
def c4pages : List UpstreamPage :=
  [UpstreamPage.ok ((List.range 50).map c4item) (Except.ok []) (some "page2token"),
   UpstreamPage.ok ((List.range 23).map fun i => c4item (50 + i)) (Except.ok []) none]

/-- Witness for C4 at the spec's 73-video example: exactly 2 search
calls and 73 delivered videos. -/
theorem C4_witness :
    (1 ≤ c4pages.length ∧
      ∀ i (hi : i < c4pages.length),
        ((c4pages.get ⟨i, hi⟩).wellFormed false = true) ∧
        (i + 1 < c4pages.length → ((c4pages.get ⟨i, hi⟩).token).isSome = true) ∧
        (i + 1 = c4pages.length → (c4pages.get ⟨i, hi⟩).token = none)) ∧
    ∃ vs, getAllChannelVideos false c4pages = Except.ok (vs, 2) ∧ vs.length = 73 := by
  have hh : 1 ≤ c4pages.length ∧
      ∀ i (hi : i < c4pages.length),
        ((c4pages.get ⟨i, hi⟩).wellFormed false = true) ∧
        (i + 1 < c4pages.length → ((c4pages.get ⟨i, hi⟩).token).isSome = true) ∧
        (i + 1 = c4pages.length → (c4pages.get ⟨i, hi⟩).token = none) := by
    constructor
    · decide
    · decide
  obtain ⟨vs, hrun, hlen⟩ := C4_pagination false c4pages hh.1 hh.2
  refine ⟨hh, vs, ?_, ?_⟩
  · exact hrun
  · rw [hlen]
    decide

/-! Stream/batch agreement (C10). -/

lemma streamAux_result (b : Bool) :
    ∀ (pages : List UpstreamPage) (acc : List Video) (n : Nat) (tok : Option String),
      (streamAux b acc n tok pages).2 = (getAllAux b acc n pages).map Prod.fst := by
  intro pages
  induction pages with
  | nil =>
    intro acc n tok
    rfl
  | cons p rest ih =>
    intro acc n tok
    cases p with
    | fail msg => rfl
    | ok items details tk =>
      cases hpp : processPage b items details with
      | error e => simp [streamAux, getAllAux, hpp, Except.map]
      | ok merged =>
        cases tk with
        | none => simp [streamAux, getAllAux, hpp, Except.map]
        | some t =>
          have := ih (acc ++ merged) (n + 1) (some t)
          simpa [streamAux, getAllAux, hpp] using this

lemma batchesOf_append (xs ys : List FetchAction) :
    batchesOf (xs ++ ys) = batchesOf xs ++ batchesOf ys := by
  simp [batchesOf]

lemma streamAux_batches (b : Bool) :
    ∀ (pages : List UpstreamPage) (acc : List Video) (n : Nat) (tok : Option String)
      (vs : List Video),
      (streamAux b acc n tok pages).2 = Except.ok vs →
      vs = acc ++ (batchesOf (streamAux b acc n tok pages).1).flatten := by
  intro pages
  induction pages with
  | nil =>
    intro acc n tok vs h
    have hvs : acc = vs := by simpa [streamAux] using h
    simp [streamAux, batchesOf, ← hvs]
  | cons p rest ih =>
    intro acc n tok vs h
    cases p with
    | fail msg => simp [streamAux] at h
    | ok items details tk =>
      cases hpp : processPage b items details with
      | error e =>
        rw [show streamAux b acc n tok (UpstreamPage.ok items details tk :: rest) =
          ([FetchAction.progress (n + 1) acc.length tok.isSome,
            FetchAction.search (n + 1), FetchAction.detailBatch (n + 1)],
            Except.error e) from by simp [streamAux, hpp]] at h
        simp at h
      | ok merged =>
        have hempty : items.isEmpty = true → merged = [] := by
          intro he
          cases items with
          | nil =>
            have he2 : (Except.ok [] : Except String (List Video)) = Except.ok merged := by
              simpa [processPage] using hpp
            simpa using he2.symm
          | cons x xs => simp at he
        cases tk with
        | none =>
          have hvs : vs = acc ++ merged := by
            have := h
            simp [streamAux, hpp] at this
            exact this.symm
          subst hvs
          cases hie : items.isEmpty with
          | true =>
            have hm := hempty hie
            subst hm
            simp [streamAux, hpp, batchesOf, hie]
          | false =>
            cases b with
            | false => simp [streamAux, hpp, batchesOf, hie]
            | true => simp [streamAux, hpp, batchesOf, hie]
        | some t =>
          have hres : (streamAux b (acc ++ merged) (n + 1) (some t) rest).2 = Except.ok vs := by
            have := h
            simpa [streamAux, hpp] using this
          have hIH := ih (acc ++ merged) (n + 1) (some t) vs hres
          have htr : (streamAux b acc n tok (UpstreamPage.ok items details (some t) :: rest)).1 =
              (FetchAction.progress (n + 1) acc.length tok.isSome ::
                FetchAction.search (n + 1) ::
                  (if items.isEmpty then []
                   else (if b then [FetchAction.detailBatch (n + 1)] else []) ++
                     [FetchAction.videos merged])) ++
                (streamAux b (acc ++ merged) (n + 1) (some t) rest).1 := by
            simp [streamAux, hpp]
          rw [htr, batchesOf_append, List.flatten_append]
          cases hie : items.isEmpty with
          | true =>
            have hm := hempty hie
            subst hm
            simpa [batchesOf, hie] using hIH
          | false =>
            cases b with
            | false =>
              rw [hIH]
              simp [batchesOf, hie]
            | true =>
              rw [hIH]
              simp [batchesOf, hie]

/-- C10: the array streamAllChannelVideos returns is what
getAllChannelVideos returns for the same responses (and the two fail
alike), and on success it equals, element for element and in order, the
concatenation of the batches handed to the onVideos callback. -/
theorem C10_stream_batch_agreement (b : Bool) (pages : List UpstreamPage) :
    (streamAllChannelVideos b pages).2 = (getAllChannelVideos b pages).map Prod.fst ∧
    (∀ vs, (streamAllChannelVideos b pages).2 = Except.ok vs →
      vs = (batchesOf (streamAllChannelVideos b pages).1).flatten) := by
  constructor
  · exact streamAux_result b pages [] 0 none
  · intro vs h
    have := streamAux_batches b pages [] 0 none vs h
    simpa using this

/-- A synthetic search item for the C10 witness pages. -/
def c10item (s : String) : SearchItem :=
  { id := { kind := "youtube#video", videoId := s }
    snippet := { title := "t", description := "d", publishedAt := "p", thumbnailUrl := "u" } }

/-- The C10 witness session: two pages of one video each. -/
def c10pages : List UpstreamPage :=
  [UpstreamPage.ok [c10item "x"] (Except.ok []) (some "tok2"),
   UpstreamPage.ok [c10item "y"] (Except.ok []) none]

/-- The videos the C10 witness session delivers. -/
def c10vs : List Video :=
  [videoOfSearchItem (c10item "x"), videoOfSearchItem (c10item "y")]

/-- Witness for C10 at the concrete two-page session. -/
theorem C10_witness :
    (streamAllChannelVideos false c10pages).2 =
      (getAllChannelVideos false c10pages).map Prod.fst ∧
    (streamAllChannelVideos false c10pages).2 = Except.ok c10vs ∧
    c10vs = (batchesOf (streamAllChannelVideos false c10pages).1).flatten := by
  obtain ⟨h1, h2⟩ := C10_stream_batch_agreement false c10pages
  exact ⟨h1, rfl, h2 c10vs rfl⟩

/-! Progress placement (C6). -/

/-- The progress discipline the stream trace actually obeys, threaded
with the number of videos delivered so far: every onProgress invocation
carries a running total equal to the videos accumulated from the pages
already completed, and is immediately followed by the search call of the
page whose number it carries -- it precedes that page's work rather than
following it. -/
def progressOK : Nat → List FetchAction → Prop
  | _, [] => True
  | t, FetchAction.progress p tot _ :: rest =>
    tot = t ∧ rest.head? = some (FetchAction.search p) ∧ progressOK t rest
  | t, FetchAction.search _ :: rest => progressOK t rest
  | t, FetchAction.detailBatch _ :: rest => progressOK t rest
  | t, FetchAction.videos bch :: rest => progressOK (t + bch.length) rest

lemma progressOK_streamAux (b : Bool) :
    ∀ (pages : List UpstreamPage) (acc : List Video) (n : Nat) (tok : Option String),
      progressOK acc.length (streamAux b acc n tok pages).1 := by
  intro pages
  induction pages with
  | nil =>
    intro acc n tok
    simp [streamAux, progressOK]
  | cons p rest ih =>
    intro acc n tok
    cases p with
    | fail msg => simp [streamAux, progressOK]
    | ok items details tk =>
      cases hpp : processPage b items details with
      | error e => simp [streamAux, hpp, progressOK]
      | ok merged =>
        have hempty : items.isEmpty = true → merged = [] := by
          intro he
          cases items with
          | nil =>
            have he2 : (Except.ok [] : Except String (List Video)) = Except.ok merged := by
              simpa [processPage] using hpp
            simpa using he2.symm
          | cons x xs => simp at he
        have hacc : ∀ rest2, progressOK ((acc ++ merged).length) rest2 →
            progressOK (acc.length + merged.length) rest2 := by
          intro rest2 hr
          simpa [List.length_append] using hr
        cases tk with
        | none =>
          cases hie : items.isEmpty with
          | true =>
            have hm := hempty hie
            subst hm
            simp [streamAux, hpp, hie, progressOK]
          | false =>
            cases b with
            | false => simp [streamAux, hpp, hie, progressOK]
            | true => simp [streamAux, hpp, hie, progressOK]
        | some t =>
          have hnext := ih (acc ++ merged) (n + 1) (some t)
          cases hie : items.isEmpty with
          | true =>
            have hm := hempty hie
            subst hm
            rw [List.append_nil] at hnext
            simp [streamAux, hpp, hie, progressOK]
            exact hnext
          | false =>
            cases b with
            | false =>
              simp [streamAux, hpp, hie, progressOK]
              exact hacc _ hnext
            | true =>
              simp [streamAux, hpp, hie, progressOK]
              exact hacc _ hnext

/-- C6 amended: in every streaming session the onProgress notification
for a page is emitted immediately before that page's search call -- not
after the page's delivery -- carrying the number of the page about to
be fetched and a running total equal to the videos accumulated from the
pages already completed; so every progress total reflects completed
work, never requested work. -/
theorem C6_progress_before_page_call (b : Bool) (pages : List UpstreamPage) :
    progressOK 0 (streamAllChannelVideos b pages).1 := by
  have h := progressOK_streamAux b pages [] 0 none
  simpa using h

/-- A search item for the C6 counterexample page. -/
def c6item (s : String) : SearchItem :=
  { id := { kind := "youtube#video", videoId := s }
    snippet := { title := "t", description := "d", publishedAt := "p", thumbnailUrl := "u" } }

/-- A detail record for the C6 counterexample page. -/
def c6raw (s : String) : RawVideo :=
  { id := s, title := "t", description := "d", publishedAt := "p", thumbnailUrl := "u"
    duration := "PT1M", viewCount := "1", likeCount := "0", commentCount := "0", tags := none }

/-- The C6 counterexample session: one page of two videos, details
requested and answered, no continuation cursor. -/
def c6pages : List UpstreamPage :=
  [UpstreamPage.ok [c6item "a", c6item "b"]
    (Except.ok [c6raw "a", c6raw "b"]) none]

/-- The merged batch the C6 counterexample session delivers. -/
def c6merged : List Video :=
  mergePage [c6item "a", c6item "b"] (getVideoDetails [c6raw "a", c6raw "b"])

/-- C6 counterexample: the claim places each page's progress
notification after that page's results are accumulated and delivered.
In this one-page session (two videos) the computed trace shows the only
progress action first, before the page's search call, carrying a total
of 0 -- and nothing at all follows the delivery, so no progress event
carrying the completed page's total of 2 is ever emitted. -/
theorem C6_counterexample :
    (streamAllChannelVideos true c6pages).1 =
      [FetchAction.progress 1 0 false, FetchAction.search 1,
       FetchAction.detailBatch 1, FetchAction.videos c6merged] ∧
    c6merged.length = 2 ∧
    (streamAllChannelVideos true c6pages).1.getLast? =
      some (FetchAction.videos c6merged) := by
  exact ⟨rfl, rfl, rfl⟩

/-! Disconnect handling (C2). -/

/-- The C2 counterexample session: three pages, cursors on the first
two. The pages are empty of items so the counterexample isolates the
call pattern; the claim is about upstream calls continuing, not about
payloads. -/
def c2pages : List UpstreamPage :=
  [UpstreamPage.ok [] (Except.ok []) (some "tok2"),
   UpstreamPage.ok [] (Except.ok []) (some "tok3"),
   UpstreamPage.ok [] (Except.ok []) none]

/-- Environment for the C2 counterexample. -/
def c2env : FetchEnv :=
  { channelSearch := fun _ => Except.ok ["UCBJycsmduvYEL83R_U4JriQ"]
    channelsList := Except.ok
      [{ id := "UCBJycsmduvYEL83R_U4JriQ", title := "T", description := "D"
         thumbnailUrl := "th", subscriberCount := "1", videoCount := "0", viewCount := "2" }]
    pages := c2pages }

/-- C2 counterexample: the consumer disconnects after page 1 completes,
so the claim allows no further upstream calls -- at most the one search
call already made. The session nevertheless issues all 3 search calls,
because the close handler only logs and the loop consults no disconnect
state. -/
theorem C2_counterexample :
    (routeStreamWithDisconnect c2env "somechannel" (some 1)).2 = 3 ∧
    ¬ (routeStreamWithDisconnect c2env "somechannel" (some 1)).2 ≤ 1 := by
  have h : (routeStreamWithDisconnect c2env "somechannel" (some 1)).2 = 3 := rfl
  constructor
  · exact h
  · rw [h]
    decide

lemma searchCallCount_append (xs ys : List FetchAction) :
    searchCallCount (xs ++ ys) = searchCallCount xs + searchCallCount ys := by
  simp [searchCallCount, List.countP_append]

lemma searchCallCount_streamAux_le (b : Bool) :
    ∀ (pages : List UpstreamPage) (acc : List Video) (n : Nat) (tok : Option String),
      searchCallCount (streamAux b acc n tok pages).1 ≤ pages.length := by
  intro pages
  induction pages with
  | nil =>
    intro acc n tok
    simp [streamAux, searchCallCount]
  | cons p rest ih =>
    intro acc n tok
    cases p with
    | fail msg => simp [streamAux, searchCallCount, List.countP_cons]
    | ok items details tk =>
      cases hpp : processPage b items details with
      | error e => simp [streamAux, hpp, searchCallCount, List.countP_cons]
      | ok merged =>
        cases tk with
        | none =>
          cases hie : items.isEmpty with
          | true => simp [streamAux, hpp, hie, searchCallCount, List.countP_cons]
          | false =>
            cases b with
            | false =>
              simp [streamAux, hpp, hie, searchCallCount, List.countP_cons]
            | true =>
              simp [streamAux, hpp, hie, searchCallCount, List.countP_cons]
        | some t =>
          have hnext := ih (acc ++ merged) (n + 1) (some t)
          have key : searchCallCount
              (streamAux b acc n tok (UpstreamPage.ok items details (some t) :: rest)).1 =
              searchCallCount (streamAux b (acc ++ merged) (n + 1) (some t) rest).1 + 1 := by
            cases hie : items.isEmpty with
            | true => simp [streamAux, hpp, hie, searchCallCount, List.countP_cons]
            | false =>
              cases b with
              | false => simp [streamAux, hpp, hie, searchCallCount, List.countP_cons]
              | true => simp [streamAux, hpp, hie, searchCallCount, List.countP_cons]
          rw [key]
          simp only [List.length_cons]
          exact Nat.add_le_add_right hnext 1

/-- C2 amended: the disconnect signal does not stop the fetch loop. The
close handler only logs, so the session's event sequence and upstream
call count are identical whatever the disconnect timing; the loop keeps
issuing search calls until the cursor chain ends or a call fails, never
more than one per available page -- bounded by pagination, not by the
disconnect. -/
theorem C2_disconnect_ignored (env : FetchEnv) (input : String) (d : Option Nat) :
    routeStreamWithDisconnect env input d = routeStreamWithDisconnect env input none ∧
    (routeStreamWithDisconnect env input d).2 ≤ env.pages.length := by
  constructor
  · rfl
  · exact searchCallCount_streamAux_le true env.pages [] 0 none

/-! The SSE event protocol (C5). -/

/-- The number of video callbacks in a callback sequence. -/
def cbVideoCount (cbs : List CB) : Nat :=
  cbs.countP fun cb =>
    match cb with
    | CB.video _ => true
    | _ => false

lemma sseOfCBs_append : ∀ (xs ys : List CB) (c : Nat),
    sseOfCBs c (xs ++ ys) = sseOfCBs c xs ++ sseOfCBs (c + cbVideoCount xs) ys := by
  intro xs
  induction xs with
  | nil =>
    intro ys c
    simp [sseOfCBs, cbVideoCount]
  | cons cb rest ih =>
    intro ys c
    cases cb with
    | progress s =>
      have hc : cbVideoCount (CB.progress s :: rest) = cbVideoCount rest := by
        simp [cbVideoCount, List.countP_cons]
      simp only [List.cons_append, sseOfCBs, hc]
      exact congrArg (List.cons (SSEEvent.progress s)) (ih ys c)
    | video v =>
      have hc : cbVideoCount (CB.video v :: rest) = cbVideoCount rest + 1 := by
        simp [cbVideoCount, List.countP_cons]
      have harith : c + 1 + cbVideoCount rest = c + (cbVideoCount rest + 1) := by
        omega
      simp only [List.cons_append, sseOfCBs, hc]
      rw [← harith]
      exact congrArg (List.cons (SSEEvent.video v (c + 1))) (ih ys (c + 1))
    | complete =>
      have hc : cbVideoCount (CB.complete :: rest) = cbVideoCount rest := by
        simp [cbVideoCount, List.countP_cons]
      simp only [List.cons_append, sseOfCBs, hc]
      exact congrArg (List.cons (SSEEvent.complete c)) (ih ys c)
    | error m =>
      have hc : cbVideoCount (CB.error m :: rest) = cbVideoCount rest := by
        simp [cbVideoCount, List.countP_cons]
      simp only [List.cons_append, sseOfCBs, hc]
      exact congrArg (List.cons (SSEEvent.error m)) (ih ys c)

lemma sseOfCBs_nonterminal : ∀ (xs : List CB) (c : Nat),
    (∀ cb ∈ xs, cb.nonTerminal = true) →
    ∀ e ∈ sseOfCBs c xs, e.isProgress = true ∨ e.isVideo = true := by
  intro xs
  induction xs with
  | nil =>
    intro c _ e he
    simp [sseOfCBs] at he
  | cons cb rest ih =>
    intro c h e he
    have hrest : ∀ cb2 ∈ rest, cb2.nonTerminal = true := by
      intro cb2 h2
      exact h cb2 (by simp [h2])
    cases cb with
    | progress s =>
      simp only [sseOfCBs, List.mem_cons] at he
      rcases he with rfl | he2
      · left
        rfl
      · exact ih c hrest e he2
    | video v =>
      simp only [sseOfCBs, List.mem_cons] at he
      rcases he with rfl | he2
      · right
        rfl
      · exact ih (c + 1) hrest e he2
    | complete =>
      have := h CB.complete (by simp)
      simp [CB.nonTerminal] at this
    | error m =>
      have := h (CB.error m) (by simp)
      simp [CB.nonTerminal] at this

lemma sseOfCBs_no_connected : ∀ (xs : List CB) (c : Nat),
    (sseOfCBs c xs).countP SSEEvent.isConnected = 0 := by
  intro xs
  induction xs with
  | nil =>
    intro c
    simp [sseOfCBs]
  | cons cb rest ih =>
    intro c
    cases cb with
    | progress s => simp [sseOfCBs, List.countP_cons, SSEEvent.isConnected, ih]
    | video v => simp [sseOfCBs, List.countP_cons, SSEEvent.isConnected, ih]
    | complete => simp [sseOfCBs, List.countP_cons, SSEEvent.isConnected, ih]
    | error m => simp [sseOfCBs, List.countP_cons, SSEEvent.isConnected, ih]

lemma videoCounts_sseOfCBs : ∀ (xs : List CB) (c : Nat),
    videoCounts (sseOfCBs c xs) = List.range' (c + 1) (cbVideoCount xs) := by
  intro xs
  induction xs with
  | nil =>
    intro c
    simp [sseOfCBs, videoCounts, cbVideoCount]
  | cons cb rest ih =>
    intro c
    cases cb with
    | progress s =>
      simp [sseOfCBs, videoCounts, cbVideoCount, List.countP_cons] at ih ⊢
      exact ih c
    | video v =>
      have hr := ih (c + 1)
      simp only [sseOfCBs, videoCounts, List.filterMap_cons] at hr ⊢
      rw [hr]
      have hcount : cbVideoCount (CB.video v :: rest) = cbVideoCount rest + 1 := by
        simp [cbVideoCount, List.countP_cons]
      rw [hcount, List.range'_succ]
    | complete =>
      simp [sseOfCBs, videoCounts, cbVideoCount, List.countP_cons] at ih ⊢
      exact ih c
    | error m =>
      simp [sseOfCBs, videoCounts, cbVideoCount, List.countP_cons] at ih ⊢
      exact ih c

lemma cbOfActions_nonTerminal (tr : List FetchAction) :
    ∀ cb ∈ cbOfActions tr, CB.nonTerminal cb = true := by
  intro cb h
  rw [cbOfActions, List.mem_flatten] at h
  obtain ⟨l, hl, hcb⟩ := h
  rw [List.mem_map] at hl
  obtain ⟨a, _, rfl⟩ := hl
  cases a with
  | progress p t hm =>
    simp [cbOfAction] at hcb
    subst hcb
    rfl
  | search p => simp [cbOfAction] at hcb
  | detailBatch p => simp [cbOfAction] at hcb
  | videos bch =>
    simp [cbOfAction, List.mem_map] at hcb
    obtain ⟨v, _, rfl⟩ := hcb
    rfl

lemma streamYoutubeVideos_split (env : FetchEnv) (input : String) :
    ∃ xs t, streamYoutubeVideos env input = xs ++ [t] ∧
      (∀ cb ∈ xs, cb.nonTerminal = true) ∧
      (t = CB.complete ∨ ∃ m, t = CB.error m) := by
  unfold streamYoutubeVideos
  cases hid : (getChannelId env.channelSearch input).1 with
  | error e =>
    refine ⟨[CB.progress "channel_lookup"], CB.error e, by simp, ?_, Or.inr ⟨e, rfl⟩⟩
    intro cb hcb
    simp at hcb
    subst hcb
    rfl
  | ok channelId =>
    cases hinfo : getChannelInfo env.channelsList channelId with
    | error e =>
      refine ⟨[CB.progress "channel_lookup", CB.progress "channel_info"],
        CB.error e, by simp [hinfo], ?_, Or.inr ⟨e, rfl⟩⟩
      intro cb hcb
      simp at hcb
      rcases hcb with rfl | rfl <;> rfl
    | ok info =>
      have hmem : ∀ (tr : List FetchAction) cb,
          cb ∈ ([CB.progress "channel_lookup", CB.progress "channel_info",
            CB.progress "channel_ready", CB.progress "videos_start"] ++ cbOfActions tr) →
          CB.nonTerminal cb = true := by
        intro tr cb hcb
        rw [List.mem_append] at hcb
        rcases hcb with hcb | hcb
        · simp at hcb
          rcases hcb with rfl | rfl | rfl | rfl <;> rfl
        · exact cbOfActions_nonTerminal tr cb hcb
      cases hstream : streamAllChannelVideos true env.pages with
      | mk tr res =>
        cases res with
        | ok vs =>
          refine ⟨[CB.progress "channel_lookup", CB.progress "channel_info",
            CB.progress "channel_ready", CB.progress "videos_start"] ++ cbOfActions tr,
            CB.complete, by simp [hinfo], hmem tr, Or.inl rfl⟩
        | error e =>
          refine ⟨[CB.progress "channel_lookup", CB.progress "channel_info",
            CB.progress "channel_ready", CB.progress "videos_start"] ++ cbOfActions tr,
            CB.error e, by simp [hinfo], hmem tr, Or.inr ⟨e, rfl⟩⟩

lemma nonterminal_not_terminal (e : SSEEvent)
    (h : e.isProgress = true ∨ e.isVideo = true) :
    e.isComplete = false ∧ e.isError = false ∧ e.isConnected = false := by
  cases e with
  | connected => rcases h with h | h <;> simp [SSEEvent.isProgress, SSEEvent.isVideo] at h
  | progress s => exact ⟨rfl, rfl, rfl⟩
  | video v c => exact ⟨rfl, rfl, rfl⟩
  | complete n => rcases h with h | h <;> simp [SSEEvent.isProgress, SSEEvent.isVideo] at h
  | error m => rcases h with h | h <;> simp [SSEEvent.isProgress, SSEEvent.isVideo] at h

/-- C5: every streaming session's event sequence begins with exactly one
connected event; everything between it and the terminal event is
progress or video events only; the terminal event is one complete or
one error, and across the whole sequence the complete and error events
together number exactly one (so a successful run has one complete and
no error, a failed run has one error and no complete, and never both);
and the count stamps of the video events are exactly 1, 2, 3, ... in
order -- strictly increasing from 1. -/
theorem C5_stream_event_protocol (env : FetchEnv) (input : String) :
    ∃ mid term,
      routeStream env input = SSEEvent.connected :: (mid ++ [term]) ∧
      (∀ e ∈ mid, e.isProgress = true ∨ e.isVideo = true) ∧
      ((∃ n, term = SSEEvent.complete n) ∨ (∃ m, term = SSEEvent.error m)) ∧
      (routeStream env input).countP SSEEvent.isConnected = 1 ∧
      (routeStream env input).countP SSEEvent.isComplete +
        (routeStream env input).countP SSEEvent.isError = 1 ∧
      (∃ k, videoCounts (routeStream env input) = List.range' 1 k) := by
  obtain ⟨xs, t, hsplit, hnt, hterm⟩ := streamYoutubeVideos_split env input
  have hroute : routeStream env input =
      SSEEvent.connected :: (sseOfCBs 0 xs ++ sseOfCBs (cbVideoCount xs) [t]) := by
    rw [routeStream, hsplit, sseOfCBs_append]
    simp
  have hmid := sseOfCBs_nonterminal xs 0 hnt
  rcases hterm with rfl | ⟨m, rfl⟩
  all_goals {
    refine ⟨sseOfCBs 0 xs, _, by rw [hroute]; rfl, hmid, ?_, ?_, ?_, ?_⟩
    · first
      | exact Or.inl ⟨cbVideoCount xs, rfl⟩
      | exact Or.inr ⟨m, rfl⟩
    · rw [hroute]
      simp only [List.countP_cons, List.countP_append, sseOfCBs_no_connected,
        sseOfCBs]
      simp [SSEEvent.isConnected, List.countP_cons]
    · rw [hroute]
      have hmidc : (sseOfCBs 0 xs).countP SSEEvent.isComplete = 0 := by
        rw [List.countP_eq_zero]
        intro e he
        simp [(nonterminal_not_terminal e (hmid e he)).1]
      have hmide : (sseOfCBs 0 xs).countP SSEEvent.isError = 0 := by
        rw [List.countP_eq_zero]
        intro e he
        simp [(nonterminal_not_terminal e (hmid e he)).2.1]
      simp only [List.countP_cons, List.countP_append, hmidc, hmide, sseOfCBs]
      simp [SSEEvent.isComplete, SSEEvent.isError, SSEEvent.isConnected,
        List.countP_cons]
    · rw [hroute]
      refine ⟨cbVideoCount xs, ?_⟩
      simp only [videoCounts, List.filterMap_cons, List.filterMap_append]
      have h1 := videoCounts_sseOfCBs xs 0
      simp only [videoCounts] at h1
      rw [h1]
      simp [sseOfCBs]
  }

end YTF
